import Mathlib

/-!
Shallow embedding of `src/scripts/Qual Coding Example.py`: a pipeline that
reads a tabular dataset, classifies each row's `text` field through a remote
completion service, and writes the dataset back with one classification
column.  The remote service is modelled as an oracle
`String → Except String String` mapping the prompt either to a returned
message content (`.ok`) or to a raised exception (`.error`); Python
exceptions escaping a function are modelled by an `Except String` result.
-/

/-- Decidable equality for `Except` results, for evaluating the model on
concrete inputs. -/
instance {ε α : Type} [DecidableEq ε] [DecidableEq α] : DecidableEq (Except ε α) := fun x y =>
  match x, y with
  | .error a, .error b =>
    if h : a = b then .isTrue (by rw [h]) else .isFalse (fun hh => h (Except.error.inj hh))
  | .error _, .ok _ => .isFalse (fun hh => Except.noConfusion hh)
  | .ok _, .error _ => .isFalse (fun hh => Except.noConfusion hh)
  | .ok a, .ok b =>
    if h : a = b then .isTrue (by rw [h]) else .isFalse (fun hh => h (Except.ok.inj hh))

/-- A spreadsheet cell value as pandas delivers it: a string, an integer, or
the NaN a blank cell produces.  Python truthiness and the presence of the
`.strip` attribute depend on which of these it is. -/
inductive CellValue where
  | str : String → CellValue
  | int : Int → CellValue
  | nan : CellValue
deriving DecidableEq, Repr

/-- Python falsiness of a cell value: `not x` is true for `""` and `0`;
NaN is truthy. -/
def CellValue.falsy : CellValue → Bool
  | .str s => s == ""
  | .int n => n == 0
  | .nan => false

/-- Whether the cell value is a string (and so has a `.strip` method). -/
def CellValue.isStr : CellValue → Bool
  | .str _ => true
  | _ => false

/-- The analyzer state set up by `SimpleFeedbackAnalyzer.__init__`: the list
of teaching skills.  The remote client handle is passed separately as the
oracle. -/
structure SimpleFeedbackAnalyzer where
  teaching_skills : List String
deriving DecidableEq, Repr

/-- The analyzer with the skill list hard-coded in `__init__`. -/
def analyzer : SimpleFeedbackAnalyzer :=
  { teaching_skills :=
      ["Classroom Management",
       "Lesson Planning",
       "Differentiation",
       "Assessment and Feedback",
       "Student Engagement",
       "Student Comprehension",
       "Communication"] }

/-- The label set accepted by the response check on line 126 of the source:
`self.teaching_skills + ["other", "none", "multiple"]`. -/
def allowed (a : SimpleFeedbackAnalyzer) : List String :=
  a.teaching_skills ++ ["other", "none", "multiple"]

/-- Fixed leading text of the prompt template, up to the interpolated
feedback text. -/
def promptIntro : String :=
  "Analyze this feedback given to a pre-service teacher and identify the main area that needs improvement.\n        \nFeedback text:\n"

/-- Fixed text of the prompt template between the feedback text and the
comma-joined skills list. -/
def promptMid : String :=
  "\n\nRespond with ONLY ONE of these options: "

/-- Fixed trailing text of the prompt template after the skills list: the
sentinel options and the tie-break rules. -/
def promptTail : String :=
  ", \"other\", \"none\", or \"multiple\".\n\nRules:\n- Choose \"multiple\" if there are several equally emphasized areas for improvement\n- Choose \"none\" if no specific area for improvement is mentioned\n- Choose \"other\" if the area for improvement doesn\x27t match any of the listed skills\n- Otherwise, choose the most prominent teaching skill that needs improvement"

/-- `SimpleFeedbackAnalyzer.create_prompt`: joins the skills with `", "` and
interpolates the feedback text and the joined list into the fixed f-string
template. -/
def create_prompt (a : SimpleFeedbackAnalyzer) (feedback_text : String) : String :=
  let skills_list := String.intercalate ", " a.teaching_skills
  "Analyze this feedback given to a pre-service teacher and identify the main area that needs improvement.\n        \nFeedback text:\n"
    ++ feedback_text
    ++ "\n\nRespond with ONLY ONE of these options: "
    ++ skills_list
    ++ ", \"other\", \"none\", or \"multiple\".\n\nRules:\n- Choose \"multiple\" if there are several equally emphasized areas for improvement\n- Choose \"none\" if no specific area for improvement is mentioned\n- Choose \"other\" if the area for improvement doesn\x27t match any of the listed skills\n- Otherwise, choose the most prominent teaching skill that needs improvement"

/-- Python's `str.strip()` with no argument: remove leading and trailing
whitespace.  Defined by structural recursion on the character list so that
closed instances evaluate. -/
def pyStrip (s : String) : String :=
  ⟨(((s.data.dropWhile Char.isWhitespace).reverse).dropWhile Char.isWhitespace).reverse⟩

/-- The length check on line 100 of the source, `len(feedback_text.strip()) < 0`,
with Python `len` landing in ℤ for the comparison. -/
def lenCheck (s : String) : Bool :=
  decide (((pyStrip s).length : Int) < 0)

/-- `SimpleFeedbackAnalyzer.get_area_for_improvement`.  The result carries
the label together with the number of remote calls made (0 or 1).  An
uncaught Python exception (the `AttributeError` from `.strip()` on a truthy
non-string) is the `.error` case; everything inside the `try` block that
fails is delivered by the oracle's `.error` and mapped to `"none"`. -/
def get_area_for_improvement (a : SimpleFeedbackAnalyzer)
    (oracle : String → Except String String) (feedback_text : CellValue) :
    Except String (String × Nat) :=
  if feedback_text.falsy then
    .ok ("none", 0)
  else
    match feedback_text with
    | .str s =>
      if lenCheck s then
        .ok ("none", 0)
      else
        match oracle (create_prompt a s) with
        | .error _ => .ok ("none", 1)
        | .ok content =>
          let area := pyStrip content
          if area ∈ allowed a then .ok (area, 1) else .ok ("other", 1)
    | _ => .error "AttributeError: object has no attribute strip"

/-- One row of the dataset: an association list from column name to cell
value, in column order. -/
abbrev Row := List (String × CellValue)

/-- Assign a value to a column of a row, pandas-style: overwrite in place if
the column exists, append it at the end otherwise. -/
def setKey : Row → String → CellValue → Row
  | [], c, v => [(c, v)]
  | (k, w) :: r, c, v =>
    if k = c then (c, v) :: r else (k, w) :: setKey r c v

/-- The in-memory dataset: ordered column names and ordered rows. -/
structure DataFrame where
  columns : List String
  rows : List Row
deriving DecidableEq, Repr

/-- The assignment `df[c] = v`: sets the value in every row; the column name
is appended to the column list only when it is new. -/
def addColumn (df : DataFrame) (c : String) (v : CellValue) : DataFrame :=
  { columns := if c ∈ df.columns then df.columns else df.columns ++ [c],
    rows := df.rows.map (fun r => setKey r c v) }

/-- The loop body for one row of `process_excel_file`: read `row['text']`
(a missing column raises a `KeyError`), classify it, and store the result in
the `area_for_improvement` cell.  An exception escaping
`get_area_for_improvement` propagates. -/
def processRow (a : SimpleFeedbackAnalyzer)
    (oracle : String → Except String String) (r : Row) : Except String Row :=
  match r.lookup "text" with
  | none => .error "KeyError: text"
  | some v =>
    match get_area_for_improvement a oracle v with
    | .error e => .error e
    | .ok (result, _) => .ok (setKey r "area_for_improvement" (.str result))

/-- The `df.iterrows()` loop of `process_excel_file`, sequentially over all
rows; the first uncaught exception aborts the remaining rows. -/
def processRows (a : SimpleFeedbackAnalyzer)
    (oracle : String → Except String String) : List Row → Except String (List Row)
  | [] => .ok []
  | r :: rs =>
    match processRow a oracle r with
    | .error e => .error e
    | .ok r1 =>
      match processRows a oracle rs with
      | .error e => .error e
      | .ok rs1 => .ok (r1 :: rs1)

/-- Modelled from the spec: construction of the remote client inside
`SimpleFeedbackAnalyzer.__init__` happens in the external `OpenAI` library,
which is not under `src/`; the spec states the process "fails to construct
the Classifier if the key is absent" and lists analyzer construction failure
as fatal.  With the key present construction yields the analyzer with the
hard-coded skill list. -/
def mkAnalyzer (apiKey : Option String) : Except String SimpleFeedbackAnalyzer :=
  match apiKey with
  | none => .error "OpenAIError: the api_key client option must be set"
  | some _ => .ok analyzer

/-- `process_excel_file` after the input file has been read into `df`:
construct the analyzer, pre-fill the new column with `"none"`, run the row
loop, and write the result.  The surrounding `try`/`except` turns any
uncaught exception into an aborted run with no output file, modelled as
`none`. -/
def process_excel_file (apiKey : Option String)
    (oracle : String → Except String String) (df : DataFrame) : Option DataFrame :=
  match mkAnalyzer apiKey with
  | .error _ => none
  | .ok a =>
    let df1 := addColumn df "area_for_improvement" (.str "none")
    match processRows a oracle df1.rows with
    | .error _ => none
    | .ok rows1 => some { columns := df1.columns, rows := rows1 }

/-- The label a successfully processed row receives, as a function of the
row: used to state the characterization of the row loop. -/
def rowLabel (a : SimpleFeedbackAnalyzer)
    (oracle : String → Except String String) (r : Row) : String :=
  match r.lookup "text" with
  | some v =>
    match get_area_for_improvement a oracle v with
    | .ok (l, _) => l
    | .error _ => "none"
  | none => "none"

/-- An oracle whose completion always succeeds with the given content. -/
def okOracle (content : String) : String → Except String String :=
  fun _ => .ok content

/-- An oracle whose completion always raises the given error. -/
def errOracle (e : String) : String → Except String String :=
  fun _ => .error e

/-- A one-row input dataset with only the `text` column. -/
def dfTextOnly : DataFrame :=
  { columns := ["text"], rows := [[("text", CellValue.str "abc")]] }

/-- The output the pipeline produces from `dfTextOnly` when the oracle
answers `"Communication"`. -/
def dfTextOnlyOut : DataFrame :=
  { columns := ["text", "area_for_improvement"],
    rows := [[("text", CellValue.str "abc"),
              ("area_for_improvement", CellValue.str "Communication")]] }

/-- A one-row input dataset that already contains an
`area_for_improvement` column. -/
def dfWithLabelCol : DataFrame :=
  { columns := ["text", "area_for_improvement"],
    rows := [[("text", CellValue.str "t"),
              ("area_for_improvement", CellValue.str "keep")]] }

/-- The output the pipeline produces from `dfWithLabelCol` when the oracle
answers `"Communication"`: the pre-existing column is overwritten. -/
def dfWithLabelColOut : DataFrame :=
  { columns := ["text", "area_for_improvement"],
    rows := [[("text", CellValue.str "t"),
              ("area_for_improvement", CellValue.str "Communication")]] }

/-- A dataset whose first row carries a non-string truthy `text` cell and
whose second row is well formed. -/
def dfBadCell : DataFrame :=
  { columns := ["text"],
    rows := [[("text", CellValue.int 5)], [("text", CellValue.str "ok")]] }

/-- A two-row dataset with string `text` cells, for exercising per-row
remote failures. -/
def dfTwoRows : DataFrame :=
  { columns := ["text"],
    rows := [[("text", CellValue.str "fail row")], [("text", CellValue.str "good row")]] }

/-- What the pipeline does to one row with a string `text` cell: first the
column-wide `'none'` assignment, then the per-row label assignment. -/
def pipelineRow (oracle : String → Except String String) (r : Row) : Row :=
  setKey (setKey r "area_for_improvement" (CellValue.str "none"))
    "area_for_improvement"
    (CellValue.str (rowLabel analyzer oracle
      (setKey r "area_for_improvement" (CellValue.str "none"))))

/-- The dead length check always evaluates to `false`: a length is a
non-negative integer. -/
theorem lenCheck_eq_false (s : String) : lenCheck s = false := by
  unfold lenCheck
  simp only [decide_eq_false_iff_not, not_lt]
  exact Int.natCast_nonneg _

/-- Classifying the empty string returns `"none"` without a remote call. -/
theorem gafi_empty (a : SimpleFeedbackAnalyzer) (oracle : String → Except String String) :
    get_area_for_improvement a oracle (CellValue.str "") = .ok ("none", 0) := rfl

/-- When the oracle raises, a non-empty string is classified `"none"` after
one remote call. -/
theorem gafi_str_error (a : SimpleFeedbackAnalyzer) (oracle : String → Except String String)
    (s e : String) (hs : s ≠ "") (h : oracle (create_prompt a s) = .error e) :
    get_area_for_improvement a oracle (CellValue.str s) = .ok ("none", 1) := by
  simp [get_area_for_improvement, CellValue.falsy, hs, lenCheck_eq_false, h]

/-- When the oracle answers, a non-empty string is classified with the
trimmed content if it is an allowed label and with `"other"` otherwise,
after one remote call. -/
theorem gafi_str_content (a : SimpleFeedbackAnalyzer) (oracle : String → Except String String)
    (s content : String) (hs : s ≠ "") (h : oracle (create_prompt a s) = .ok content) :
    get_area_for_improvement a oracle (CellValue.str s) =
      .ok ((if pyStrip content ∈ allowed a then pyStrip content else "other"), 1) := by
  simp only [get_area_for_improvement, CellValue.falsy, beq_iff_eq, hs, if_false,
    lenCheck_eq_false, Bool.false_eq_true, h]
  split <;> rfl

/-- A non-empty string input always yields a label with exactly one remote
call. -/
theorem gafi_str_isOk (a : SimpleFeedbackAnalyzer) (oracle : String → Except String String)
    (s : String) (hs : s ≠ "") :
    ∃ l, get_area_for_improvement a oracle (CellValue.str s) = .ok (l, 1) := by
  cases h : oracle (create_prompt a s) with
  | error e => exact ⟨"none", gafi_str_error a oracle s e hs h⟩
  | ok content =>
    exact ⟨_, gafi_str_content a oracle s content hs h⟩

/-- A truthy non-string cell makes the emptiness check call `.strip()` on a
value without that attribute, raising outside the `try` block. -/
theorem gafi_nonstr (a : SimpleFeedbackAnalyzer) (oracle : String → Except String String)
    (v : CellValue) (h1 : v.isStr = false) (h2 : v.falsy = false) :
    get_area_for_improvement a oracle v =
      .error "AttributeError: object has no attribute strip" := by
  cases v with
  | str s => simp [CellValue.isStr] at h1
  | int n => simp [get_area_for_improvement, h2]
  | nan => rfl

/-- First components of equal `.ok` pairs agree. -/
theorem ok_pair_fst {x y : String} {m k : Nat}
    (h : (Except.ok (x, m) : Except String (String × Nat)) = .ok (y, k)) : x = y :=
  congrArg Prod.fst (Except.ok.inj h)

/-- Whenever classification returns a label, that label is in the allowed
set. -/
theorem gafi_ok_mem (a : SimpleFeedbackAnalyzer) (oracle : String → Except String String)
    (v : CellValue) (l : String) (n : Nat)
    (h : get_area_for_improvement a oracle v = .ok (l, n)) : l ∈ allowed a := by
  have hnone : "none" ∈ allowed a := List.mem_append_right _ (by simp)
  have hother : "other" ∈ allowed a := List.mem_append_right _ (by simp)
  by_cases hf : v.falsy = true
  · unfold get_area_for_improvement at h
    rw [if_pos hf] at h
    rw [← ok_pair_fst h]
    exact hnone
  · cases hstr : v.isStr with
    | false =>
      rw [gafi_nonstr a oracle v hstr (Bool.not_eq_true _ ▸ hf)] at h
      exact Except.noConfusion h
    | true =>
      cases v with
      | int n => simp [CellValue.isStr] at hstr
      | nan => simp [CellValue.isStr] at hstr
      | str s =>
      have hs : s ≠ "" := by
        intro hcon
        subst hcon
        exact hf rfl
      cases ho : oracle (create_prompt a s) with
      | error e =>
        rw [gafi_str_error a oracle s e hs ho] at h
        rw [← ok_pair_fst h]
        exact hnone
      | ok content =>
        rw [gafi_str_content a oracle s content hs ho] at h
        by_cases hm : pyStrip content ∈ allowed a
        · rw [if_pos hm] at h
          rw [← ok_pair_fst h]
          exact hm
        · rw [if_neg hm] at h
          rw [← ok_pair_fst h]
          exact hother

/-- Looking up the assigned column returns the assigned value. -/
theorem lookup_setKey_self (r : Row) (c : String) (v : CellValue) :
    (setKey r c v).lookup c = some v := by
  induction r with
  | nil => simp [setKey, List.lookup]
  | cons kv r ih =>
    obtain ⟨k, w⟩ := kv
    by_cases h : k = c
    · simp [setKey, h, List.lookup]
    · have hb : (c == k) = false := beq_eq_false_iff_ne.mpr (fun hh => h hh.symm)
      simp [setKey, h, List.lookup, ih, hb]

/-- Assigning one column leaves every other column's lookup unchanged. -/
theorem lookup_setKey_ne (r : Row) (c c' : String) (v : CellValue) (h : c' ≠ c) :
    (setKey r c v).lookup c' = r.lookup c' := by
  have hb : (c' == c) = false := beq_eq_false_iff_ne.mpr h
  induction r with
  | nil => simp [setKey, List.lookup, hb]
  | cons kv r ih =>
    obtain ⟨k, w⟩ := kv
    by_cases hk : k = c
    · subst hk
      simp [setKey, List.lookup, hb]
    · simp [setKey, hk, List.lookup, ih]

/-- A row whose `text` cell is a string is processed without an exception,
and receives exactly the label `rowLabel` computes for it. -/
theorem processRow_eq_of_str (a : SimpleFeedbackAnalyzer)
    (oracle : String → Except String String) (r : Row) (s : String)
    (hs : r.lookup "text" = some (CellValue.str s)) :
    processRow a oracle r =
      .ok (setKey r "area_for_improvement" (CellValue.str (rowLabel a oracle r))) := by
  have hok : ∃ l n, get_area_for_improvement a oracle (CellValue.str s) = .ok (l, n) := by
    by_cases he : s = ""
    · subst he
      exact ⟨"none", 0, rfl⟩
    · obtain ⟨l, h⟩ := gafi_str_isOk a oracle s he
      exact ⟨l, 1, h⟩
  obtain ⟨l, n, hg⟩ := hok
  simp only [processRow, rowLabel, hs, hg]

/-- Characterization of the row loop when every `text` cell is a string: it
succeeds and maps each row to itself with the computed label stored. -/
theorem processRows_eq_map (a : SimpleFeedbackAnalyzer)
    (oracle : String → Except String String) (rows : List Row)
    (h : ∀ r ∈ rows, ∃ s, r.lookup "text" = some (CellValue.str s)) :
    processRows a oracle rows =
      .ok (rows.map fun r =>
        setKey r "area_for_improvement" (CellValue.str (rowLabel a oracle r))) := by
  induction rows with
  | nil => rfl
  | cons r rs ih =>
    obtain ⟨s, hs⟩ := h r (List.mem_cons_self r rs)
    have h1 := processRow_eq_of_str a oracle r s hs
    have h2 := ih (fun r hr => h r (List.mem_cons_of_mem _ hr))
    simp only [processRows, h1, h2, List.map_cons]

/-- If some row's `text` cell is a truthy non-string, the row loop raises. -/
theorem processRows_error_of_bad (a : SimpleFeedbackAnalyzer)
    (oracle : String → Except String String) (rows : List Row) (r : Row) (v : CellValue)
    (hr : r ∈ rows) (hv : r.lookup "text" = some v)
    (h1 : v.isStr = false) (h2 : v.falsy = false) :
    ∃ e, processRows a oracle rows = .error e := by
  induction rows with
  | nil => cases hr
  | cons r0 rs ih =>
    rcases List.mem_cons.mp hr with heq | hmem
    · subst heq
      refine ⟨"AttributeError: object has no attribute strip", ?_⟩
      have hg := gafi_nonstr a oracle v h1 h2
      simp only [processRows, processRow, hv, hg]
    · cases hp : processRow a oracle r0 with
      | error e => exact ⟨e, by simp only [processRows, hp]⟩
      | ok r1 =>
        obtain ⟨e, he⟩ := ih hmem
        exact ⟨e, by simp only [processRows, hp, he]⟩

/-- Every row of a successful row-loop output comes from processing a row of
the input. -/
theorem processRows_ok_mem (a : SimpleFeedbackAnalyzer)
    (oracle : String → Except String String) (rows rows1 : List Row)
    (h : processRows a oracle rows = .ok rows1) :
    ∀ r1 ∈ rows1, ∃ r ∈ rows, processRow a oracle r = .ok r1 := by
  induction rows generalizing rows1 with
  | nil =>
    obtain rfl : ([] : List Row) = rows1 := Except.ok.inj h
    intro r1 hr1
    cases hr1
  | cons r0 rs ih =>
    unfold processRows at h
    cases hp : processRow a oracle r0 with
    | error e => rw [hp] at h; exact Except.noConfusion h
    | ok r2 =>
      rw [hp] at h
      cases hq : processRows a oracle rs with
      | error e => rw [hq] at h; exact Except.noConfusion h
      | ok rs1 =>
        rw [hq] at h
        obtain rfl : r2 :: rs1 = rows1 := Except.ok.inj h
        intro r1 hr1
        rcases List.mem_cons.mp hr1 with heq | hmem
        · subst heq
          exact ⟨r0, List.mem_cons_self r0 rs, hp⟩
        · obtain ⟨r, hr, hpr⟩ := ih rs1 hq r1 hmem
          exact ⟨r, List.mem_cons_of_mem _ hr, hpr⟩

/-- Every successfully processed row stores a label from the allowed set in
the `area_for_improvement` cell. -/
theorem processRow_ok_label (a : SimpleFeedbackAnalyzer)
    (oracle : String → Except String String) (r r1 : Row)
    (h : processRow a oracle r = .ok r1) :
    ∃ l, r1.lookup "area_for_improvement" = some (CellValue.str l) ∧ l ∈ allowed a := by
  unfold processRow at h
  cases hv : r.lookup "text" with
  | none =>
    simp only [hv] at h
    exact Except.noConfusion h
  | some v =>
    simp only [hv] at h
    cases hg : get_area_for_improvement a oracle v with
    | error e =>
      simp only [hg] at h
      exact Except.noConfusion h
    | ok p =>
      obtain ⟨l, n⟩ := p
      simp only [hg] at h
      obtain rfl : setKey r "area_for_improvement" (CellValue.str l) = r1 := Except.ok.inj h
      exact ⟨l, lookup_setKey_self r _ _, gafi_ok_mem a oracle v l n hg⟩

/-- Characterization of the whole pipeline when every `text` cell is a
string: it writes an output whose rows are the input rows with the computed
label stored in `area_for_improvement`. -/
theorem process_eq_of_str (key : String) (oracle : String → Except String String)
    (df : DataFrame)
    (h : ∀ r ∈ df.rows, ∃ s, r.lookup "text" = some (CellValue.str s)) :
    process_excel_file (some key) oracle df =
      some { columns := if "area_for_improvement" ∈ df.columns then df.columns
                        else df.columns ++ ["area_for_improvement"],
             rows := df.rows.map (pipelineRow oracle) } := by
  have hrows : ∀ r ∈ (addColumn df "area_for_improvement" (CellValue.str "none")).rows,
      ∃ s, r.lookup "text" = some (CellValue.str s) := by
    intro r hr
    simp only [addColumn, List.mem_map] at hr
    obtain ⟨r0, hr0, rfl⟩ := hr
    obtain ⟨s, hs⟩ := h r0 hr0
    refine ⟨s, ?_⟩
    rw [lookup_setKey_ne _ _ _ _ (by decide)]
    exact hs
  have hp := processRows_eq_map analyzer oracle _ hrows
  simp only [process_excel_file, mkAnalyzer]
  rw [hp]
  simp only [addColumn, List.map_map]
  rfl

/-- C1 (counterexample): for the whitespace-only, non-empty feedback `" "`
the code does invoke the remote service (call count 1) and returns the
service's coerced answer, so the input is not short-circuited to `"none"`
with zero calls as claimed. -/
theorem whitespace_text_invokes_remote :
    get_area_for_improvement analyzer (okOracle "Lesson Planning") (CellValue.str " ") =
      .ok ("Lesson Planning", 1) ∧
    get_area_for_improvement analyzer (okOracle "Lesson Planning") (CellValue.str " ") ≠
      .ok ("none", 0) := by
  exact ⟨rfl, by decide⟩

/-- C1 (amended): only the empty feedback string short-circuits to `"none"`
with no remote call; every non-empty feedback text, whitespace-only
included, triggers exactly one remote call. -/
theorem empty_text_short_circuit :
    (∀ oracle : String → Except String String,
      get_area_for_improvement analyzer oracle (CellValue.str "") = .ok ("none", 0)) ∧
    (∀ (oracle : String → Except String String) (s : String), s ≠ "" →
      ∃ l, get_area_for_improvement analyzer oracle (CellValue.str s) = .ok (l, 1)) := by
  constructor
  · intro oracle
    exact gafi_empty analyzer oracle
  · intro oracle s hs
    exact gafi_str_isOk analyzer oracle s hs

/-- C1 (witness): the amended statement evaluated at the empty string and at
a single space. -/
theorem empty_text_short_circuit_witness :
    get_area_for_improvement analyzer (okOracle "x") (CellValue.str "") = .ok ("none", 0) ∧
    ∃ l, get_area_for_improvement analyzer (okOracle "x") (CellValue.str " ") = .ok (l, 1) :=
  ⟨empty_text_short_circuit.1 (okOracle "x"),
   empty_text_short_circuit.2 (okOracle "x") " " (by decide)⟩

/-- C3: for any response content the service returns on a non-empty input,
the surrounding whitespace is stripped; the trimmed text is returned
unchanged when it is an allowed label, and forced to `"other"` otherwise. -/
theorem response_coercion (oracle : String → Except String String)
    (s content : String) (hs : s ≠ "")
    (h : oracle (create_prompt analyzer s) = .ok content) :
    (pyStrip content ∈ allowed analyzer →
      get_area_for_improvement analyzer oracle (CellValue.str s) =
        .ok (pyStrip content, 1)) ∧
    (pyStrip content ∉ allowed analyzer →
      get_area_for_improvement analyzer oracle (CellValue.str s) =
        .ok ("other", 1)) := by
  have hc := gafi_str_content analyzer oracle s content hs h
  constructor
  · intro hm
    rw [hc, if_pos hm]
  · intro hm
    rw [hc, if_neg hm]

/-- C3 (witness): an allowed label surrounded by whitespace is trimmed and
kept; a label outside the set is forced to `"other"`. -/
theorem response_coercion_witness :
    get_area_for_improvement analyzer (okOracle " Communication ") (CellValue.str "fb") =
      .ok ("Communication", 1) ∧
    get_area_for_improvement analyzer (okOracle "Time Management") (CellValue.str "fb") =
      .ok ("other", 1) := by
  constructor
  · have h := (response_coercion (okOracle " Communication ") "fb" " Communication "
      (by decide) rfl).1 (by decide)
    exact h.trans (by decide)
  · exact (response_coercion (okOracle "Time Management") "fb" "Time Management"
      (by decide) rfl).2 (by decide)

/-- C6 (counterexample): with the API key absent, analyzer construction
fails and the pipeline run aborts with no output dataset at all, rather than
continuing with per-row `"none"` labels. -/
theorem missing_key_aborts_run :
    mkAnalyzer none = .error "OpenAIError: the api_key client option must be set" ∧
    process_excel_file none (errOracle "AuthenticationError") dfTextOnly = none :=
  ⟨rfl, rfl⟩

/-- C6 (amended): if the API key is absent the analyzer construction failure
is caught by the pipeline's outer handler and the whole run aborts up front:
no output is produced and no row is labelled, whatever the oracle or the
input dataset. -/
theorem missing_key_no_output (oracle : String → Except String String) (df : DataFrame) :
    process_excel_file none oracle df = none := rfl

/-- C7: the check `len(feedback_text.strip()) < 0` is false for every
string, so the short-circuit to `"none"` with no remote call fires exactly
for the falsy, i.e. empty, string. -/
theorem length_check_dead_code (s : String) :
    lenCheck s = false ∧
    ∀ oracle : String → Except String String,
      (get_area_for_improvement analyzer oracle (CellValue.str s) = .ok ("none", 0) ↔
        s = "") := by
  refine ⟨lenCheck_eq_false s, ?_⟩
  intro oracle
  constructor
  · intro h
    by_contra hs
    obtain ⟨l, hl⟩ := gafi_str_isOk analyzer oracle s hs
    rw [hl] at h
    have h2 := congrArg Prod.snd (Except.ok.inj h)
    exact Nat.noConfusion h2
  · intro h
    subst h
    exact gafi_empty analyzer oracle

/-- C7 (witness): the length check evaluated on a sample string, and the
short-circuit evaluated on the empty string. -/
theorem length_check_dead_code_witness :
    lenCheck "  x  " = false ∧
    get_area_for_improvement analyzer (okOracle "x") (CellValue.str "") = .ok ("none", 0) :=
  ⟨(length_check_dead_code "  x  ").1,
   ((length_check_dead_code "").2 (okOracle "x")).mpr rfl⟩

/-- C8: `create_prompt` is a fixed template around the literal feedback text
and the comma-joined taxonomy, hence deterministic: equal feedback text and
equal taxonomy lists give equal prompts. -/
theorem prompt_template :
    (∀ (a : SimpleFeedbackAnalyzer) (s : String),
      create_prompt a s =
        promptIntro ++ s ++ promptMid ++
          String.intercalate ", " a.teaching_skills ++ promptTail) ∧
    (∀ (a1 a2 : SimpleFeedbackAnalyzer) (s1 s2 : String),
      a1.teaching_skills = a2.teaching_skills → s1 = s2 →
        create_prompt a1 s1 = create_prompt a2 s2) := by
  constructor
  · intro a s
    rfl
  · intro a1 a2 s1 s2 h1 h2
    subst h2
    unfold create_prompt
    rw [h1]

/-- C8 (witness): the template decomposition and determinism evaluated on
the concrete analyzer and a sample text. -/
theorem prompt_template_witness :
    create_prompt analyzer "hi" =
      promptIntro ++ "hi" ++ promptMid ++
        String.intercalate ", " analyzer.teaching_skills ++ promptTail ∧
    create_prompt analyzer "hi" = create_prompt analyzer "hi" :=
  ⟨prompt_template.1 analyzer "hi",
   prompt_template.2 analyzer analyzer "hi" "hi" rfl rfl⟩

/-- The pipeline's per-row transformation leaves every column other than
`area_for_improvement` unchanged. -/
theorem pipelineRow_lookup_ne (oracle : String → Except String String) (r : Row)
    (c : String) (h : c ≠ "area_for_improvement") :
    (pipelineRow oracle r).lookup c = r.lookup c := by
  unfold pipelineRow
  rw [lookup_setKey_ne _ _ _ _ h, lookup_setKey_ne _ _ _ _ h]

/-- The pipeline's per-row transformation stores the computed label. -/
theorem pipelineRow_label (oracle : String → Except String String) (r : Row) :
    (pipelineRow oracle r).lookup "area_for_improvement" =
      some (CellValue.str (rowLabel analyzer oracle
        (setKey r "area_for_improvement" (CellValue.str "none")))) :=
  lookup_setKey_self _ _ _

/-- The label computed for a row whose `text` cell is a string is whatever
the classifier returns on that string. -/
theorem rowLabel_eq (oracle : String → Except String String) (r : Row)
    (s l : String) (n : Nat) (hlook : r.lookup "text" = some (CellValue.str s))
    (hg : get_area_for_improvement analyzer oracle (CellValue.str s) = .ok (l, n)) :
    rowLabel analyzer oracle r = l := by
  simp only [rowLabel, hlook, hg]

/-- C2: whenever the pipeline writes an output dataset, every one of its
rows holds exactly one label in its `area_for_improvement` cell, and that
label belongs to the allowed set `teaching_skills ∪ {other, none, multiple}`
— never raw unvalidated model output. -/
theorem labels_in_allowed_set (key : String) (oracle : String → Except String String)
    (df out : DataFrame) (h : process_excel_file (some key) oracle df = some out) :
    ∀ r ∈ out.rows, ∃ l,
      r.lookup "area_for_improvement" = some (CellValue.str l) ∧ l ∈ allowed analyzer := by
  simp only [process_excel_file, mkAnalyzer] at h
  cases hp : processRows analyzer oracle
      (addColumn df "area_for_improvement" (CellValue.str "none")).rows with
  | error e =>
    rw [hp] at h
    exact Option.noConfusion h
  | ok rows1 =>
    simp only [hp] at h
    obtain rfl := Option.some.inj h
    intro r hr
    obtain ⟨r0, _, hrow⟩ := processRows_ok_mem analyzer oracle _ rows1 hp r hr
    exact processRow_ok_label analyzer oracle r0 r hrow

/-- C2 (witness): the single output row of a concrete run carries a label
from the allowed set. -/
theorem labels_in_allowed_set_witness :
    ∃ l, (List.lookup "area_for_improvement"
        ([("text", CellValue.str "abc"),
          ("area_for_improvement", CellValue.str "Communication")] : Row)) =
      some (CellValue.str l) ∧ l ∈ allowed analyzer :=
  labels_in_allowed_set "k" (okOracle "Communication") dfTextOnly dfTextOnlyOut rfl
    [("text", CellValue.str "abc"), ("area_for_improvement", CellValue.str "Communication")]
    (by decide)

/-- C4: an oracle failure on a row's remote call is caught and mapped to the
label `"none"`; when every row's `text` cell is a string, the pipeline still
writes an output covering every row — so no row is left unlabeled and no
single row's remote-call failure aborts the run. -/
theorem remote_failure_maps_to_none (key : String)
    (oracle : String → Except String String) (df : DataFrame)
    (htext : ∀ r ∈ df.rows, ∃ s, r.lookup "text" = some (CellValue.str s)) :
    (∀ s e, s ≠ "" → oracle (create_prompt analyzer s) = .error e →
      get_area_for_improvement analyzer oracle (CellValue.str s) = .ok ("none", 1)) ∧
    ∃ out, process_excel_file (some key) oracle df = some out ∧
      out.rows.length = df.rows.length ∧
      ∀ (i : Nat) (r : Row) (s e : String),
        df.rows[i]? = some r → r.lookup "text" = some (CellValue.str s) →
        s ≠ "" → oracle (create_prompt analyzer s) = .error e →
        ∃ r1 : Row, out.rows[i]? = some r1 ∧
          r1.lookup "area_for_improvement" = some (CellValue.str "none") := by
  refine ⟨fun s e hs he => gafi_str_error analyzer oracle s e hs he, ?_⟩
  refine ⟨_, process_eq_of_str key oracle df htext, List.length_map .., ?_⟩
  intro i r s e hi hlook hs he
  refine ⟨pipelineRow oracle r, ?_, ?_⟩
  · show (df.rows.map (pipelineRow oracle))[i]? = _
    rw [List.getElem?_map, hi]
    rfl
  · have h0 : (setKey r "area_for_improvement" (CellValue.str "none")).lookup "text" =
        some (CellValue.str s) := by
      rw [lookup_setKey_ne _ _ _ _ (by decide)]
      exact hlook
    have hlabel := rowLabel_eq oracle _ s "none" 1 h0
      (gafi_str_error analyzer oracle s e hs he)
    rw [pipelineRow_label, hlabel]

/-- C4 (witness): a run over two rows with a failing oracle writes both rows
and labels the first `"none"`. -/
theorem remote_failure_maps_to_none_witness :
    get_area_for_improvement analyzer (errOracle "boom") (CellValue.str "hi") =
      .ok ("none", 1) ∧
    ∃ out, process_excel_file (some "k") (errOracle "boom") dfTwoRows = some out ∧
      out.rows.length = dfTwoRows.rows.length ∧
      ∃ r1 : Row, out.rows[0]? = some r1 ∧
        r1.lookup "area_for_improvement" = some (CellValue.str "none") := by
  obtain ⟨hfn, out, hout, hlen, hrow⟩ :=
    remote_failure_maps_to_none "k" (errOracle "boom") dfTwoRows (by
      intro r hr
      simp only [dfTwoRows, List.mem_cons, List.not_mem_nil, or_false] at hr
      rcases hr with rfl | rfl
      · exact ⟨"fail row", rfl⟩
      · exact ⟨"good row", rfl⟩)
  refine ⟨hfn "hi" "boom" (by decide) rfl, out, hout, hlen, ?_⟩
  exact hrow 0 [("text", CellValue.str "fail row")] "fail row" "boom" rfl rfl (by decide) rfl

/-- A row the loop processes successfully is the input row with some label
assigned to `area_for_improvement`. -/
theorem processRow_ok_shape (a : SimpleFeedbackAnalyzer)
    (oracle : String → Except String String) (r r1 : Row)
    (h : processRow a oracle r = .ok r1) :
    ∃ l, r1 = setKey r "area_for_improvement" (CellValue.str l) := by
  unfold processRow at h
  cases hv : r.lookup "text" with
  | none =>
    simp only [hv] at h
    exact Except.noConfusion h
  | some v =>
    simp only [hv] at h
    cases hg : get_area_for_improvement a oracle v with
    | error e =>
      simp only [hg] at h
      exact Except.noConfusion h
    | ok p =>
      obtain ⟨l, n⟩ := p
      simp only [hg] at h
      exact ⟨l, (Except.ok.inj h).symm⟩

/-- Indexed characterization of a successful row loop: it preserves the row
count and processes the row at every index. -/
theorem processRows_ok_get (a : SimpleFeedbackAnalyzer)
    (oracle : String → Except String String) (rows rows1 : List Row)
    (h : processRows a oracle rows = .ok rows1) :
    rows1.length = rows.length ∧
    ∀ (i : Nat) (r : Row), rows[i]? = some r →
      ∃ r1, rows1[i]? = some r1 ∧ processRow a oracle r = .ok r1 := by
  induction rows generalizing rows1 with
  | nil =>
    obtain rfl : ([] : List Row) = rows1 := Except.ok.inj h
    exact ⟨rfl, fun i r hi => by cases i <;> exact Option.noConfusion hi⟩
  | cons r0 rs ih =>
    unfold processRows at h
    cases hp : processRow a oracle r0 with
    | error e =>
      rw [hp] at h
      exact Except.noConfusion h
    | ok r2 =>
      rw [hp] at h
      cases hq : processRows a oracle rs with
      | error e =>
        rw [hq] at h
        exact Except.noConfusion h
      | ok rs1 =>
        rw [hq] at h
        obtain rfl : r2 :: rs1 = rows1 := Except.ok.inj h
        obtain ⟨hlen, hget⟩ := ih rs1 hq
        refine ⟨by simp [hlen], ?_⟩
        intro i r hi
        cases i with
        | zero =>
          rw [List.getElem?_cons_zero] at hi
          obtain rfl := Option.some.inj hi
          exact ⟨r2, by rw [List.getElem?_cons_zero], hp⟩
        | succ j =>
          rw [List.getElem?_cons_succ] at hi
          obtain ⟨r1, h1, h2⟩ := hget j r hi
          refine ⟨r1, ?_, h2⟩
          rw [List.getElem?_cons_succ]
          exact h1

/-- C5 (counterexample): on an input that already has an
`area_for_improvement` column the pipeline writes an output with the same
number of columns as the input — not one more — and the value stored in that
column differs from the input's original value. -/
theorem preexisting_column_not_preserved :
    process_excel_file (some "k") (okOracle "Communication") dfWithLabelCol =
      some dfWithLabelColOut ∧
    dfWithLabelColOut.columns.length = dfWithLabelCol.columns.length ∧
    dfWithLabelColOut.rows[0]?.map (fun r => r.lookup "area_for_improvement") ≠
      dfWithLabelCol.rows[0]?.map (fun r => r.lookup "area_for_improvement") := by
  refine ⟨rfl, rfl, by decide⟩

/-- C5 (amended): whenever the pipeline writes an output for an input
dataset whose columns do not already include `area_for_improvement`, the
output contains every column and every row of the input with all original
column values unmodified and in the original order, plus exactly one new
column holding the classification label. -/
theorem round_trip_new_column (key : String) (oracle : String → Except String String)
    (df out : DataFrame) (hcol : "area_for_improvement" ∉ df.columns)
    (hout : process_excel_file (some key) oracle df = some out) :
    out.columns = df.columns ++ ["area_for_improvement"] ∧
    out.rows.length = df.rows.length ∧
    ∀ (i : Nat) (r : Row), df.rows[i]? = some r →
      ∃ r1 : Row, out.rows[i]? = some r1 ∧
        (∀ c : String, c ≠ "area_for_improvement" → r1.lookup c = r.lookup c) ∧
        ∃ l : String, r1.lookup "area_for_improvement" = some (CellValue.str l) := by
  simp only [process_excel_file, mkAnalyzer] at hout
  cases hp : processRows analyzer oracle
      (addColumn df "area_for_improvement" (CellValue.str "none")).rows with
  | error e =>
    rw [hp] at hout
    exact Option.noConfusion hout
  | ok rows1 =>
    simp only [hp] at hout
    obtain rfl := Option.some.inj hout
    obtain ⟨hlen, hget⟩ := processRows_ok_get analyzer oracle _ rows1 hp
    refine ⟨?_, ?_, ?_⟩
    · show (if "area_for_improvement" ∈ df.columns then df.columns
            else df.columns ++ ["area_for_improvement"]) = _
      rw [if_neg hcol]
    · show rows1.length = _
      rw [hlen]
      exact List.length_map ..
    · intro i r hi
      have hi1 : (df.rows.map
          (fun r => setKey r "area_for_improvement" (CellValue.str "none")))[i]? =
          some (setKey r "area_for_improvement" (CellValue.str "none")) := by
        rw [List.getElem?_map, hi]
        rfl
      obtain ⟨r1, h1, h2⟩ := hget i _ hi1
      obtain ⟨l, rfl⟩ := processRow_ok_shape analyzer oracle _ r1 h2
      refine ⟨_, h1, ?_, l, lookup_setKey_self _ _ _⟩
      intro c hc
      rw [lookup_setKey_ne _ _ _ _ hc, lookup_setKey_ne _ _ _ _ hc]

/-- C5 (witness): the amended round trip evaluated on a concrete one-row,
one-column dataset. -/
theorem round_trip_new_column_witness :
    dfTextOnlyOut.columns = dfTextOnly.columns ++ ["area_for_improvement"] ∧
    dfTextOnlyOut.rows.length = dfTextOnly.rows.length ∧
    ∃ r1 : Row, dfTextOnlyOut.rows[0]? = some r1 ∧
      (∀ c : String, c ≠ "area_for_improvement" →
        r1.lookup c = List.lookup c ([("text", CellValue.str "abc")] : Row)) ∧
      ∃ l : String, r1.lookup "area_for_improvement" = some (CellValue.str l) := by
  obtain ⟨hcols, hlen, hget⟩ :=
    round_trip_new_column "k" (okOracle "Communication") dfTextOnly dfTextOnlyOut
      (by decide) rfl
  exact ⟨hcols, hlen, hget 0 [("text", CellValue.str "abc")] rfl⟩

/-- C9: a row whose `text` cell is a truthy non-string value makes the
emptiness check raise an `AttributeError` outside the per-row `try` block;
the exception reaches the outer handler of `process_excel_file` and the
whole run aborts with no output, whatever rows follow. -/
theorem nonstring_text_aborts_pipeline (key : String)
    (oracle : String → Except String String) (df : DataFrame) (r : Row) (v : CellValue)
    (hr : r ∈ df.rows) (hv : r.lookup "text" = some v)
    (h1 : v.isStr = false) (h2 : v.falsy = false) :
    get_area_for_improvement analyzer oracle v =
      .error "AttributeError: object has no attribute strip" ∧
    process_excel_file (some key) oracle df = none := by
  refine ⟨gafi_nonstr analyzer oracle v h1 h2, ?_⟩
  have hr1 : setKey r "area_for_improvement" (CellValue.str "none") ∈
      (addColumn df "area_for_improvement" (CellValue.str "none")).rows :=
    List.mem_map_of_mem _ hr
  have hv1 : (setKey r "area_for_improvement" (CellValue.str "none")).lookup "text" =
      some v := by
    rw [lookup_setKey_ne _ _ _ _ (by decide)]
    exact hv
  obtain ⟨e, he⟩ := processRows_error_of_bad analyzer oracle _ _ v hr1 hv1 h1 h2
  simp only [process_excel_file, mkAnalyzer, he]

/-- C9 (witness): a dataset whose first row holds the integer 5 in `text`
aborts the run even though its second row is well formed. -/
theorem nonstring_text_aborts_witness :
    get_area_for_improvement analyzer (okOracle "x") (CellValue.int 5) =
      .error "AttributeError: object has no attribute strip" ∧
    process_excel_file (some "k") (okOracle "x") dfBadCell = none :=
  nonstring_text_aborts_pipeline "k" (okOracle "x") dfBadCell
    [("text", CellValue.int 5)] (CellValue.int 5) (by decide) rfl rfl rfl

/-- C10: on an input that already contains an `area_for_improvement`
column, the pipeline overwrites that column's values with the computed
per-row labels (after the column-wide `'none'` pre-fill) instead of
preserving them, and the output has exactly as many columns as the input. -/
theorem preexisting_column_overwritten (key : String)
    (oracle : String → Except String String) (df : DataFrame)
    (hcol : "area_for_improvement" ∈ df.columns)
    (htext : ∀ r ∈ df.rows, ∃ s, r.lookup "text" = some (CellValue.str s)) :
    ∃ out, process_excel_file (some key) oracle df = some out ∧
      out.columns = df.columns ∧
      out.columns.length = df.columns.length ∧
      ∀ (i : Nat) (r r1 : Row) (s l : String) (n : Nat),
        df.rows[i]? = some r → out.rows[i]? = some r1 →
        r.lookup "text" = some (CellValue.str s) →
        get_area_for_improvement analyzer oracle (CellValue.str s) = .ok (l, n) →
        r1.lookup "area_for_improvement" = some (CellValue.str l) := by
  refine ⟨_, process_eq_of_str key oracle df htext, ?_, ?_, ?_⟩
  · show (if "area_for_improvement" ∈ df.columns then df.columns
          else df.columns ++ ["area_for_improvement"]) = df.columns
    rw [if_pos hcol]
  · show (if "area_for_improvement" ∈ df.columns then df.columns
          else df.columns ++ ["area_for_improvement"]).length = df.columns.length
    rw [if_pos hcol]
  · intro i r r1 s l n hi h1 hlook hg
    have hmap : (df.rows.map (pipelineRow oracle))[i]? = some (pipelineRow oracle r) := by
      rw [List.getElem?_map, hi]
      rfl
    have h2 : (df.rows.map (pipelineRow oracle))[i]? = some r1 := h1
    rw [hmap] at h2
    obtain rfl := Option.some.inj h2
    have h0 : (setKey r "area_for_improvement" (CellValue.str "none")).lookup "text" =
        some (CellValue.str s) := by
      rw [lookup_setKey_ne _ _ _ _ (by decide)]
      exact hlook
    rw [pipelineRow_label, rowLabel_eq oracle _ s l n h0 hg]

/-- C10 (witness): the pre-existing `"keep"` value is replaced by the
computed label `"Communication"` and the column count is unchanged. -/
theorem preexisting_column_overwritten_witness :
    ∃ out, process_excel_file (some "k") (okOracle "Communication") dfWithLabelCol = some out ∧
      out.columns = dfWithLabelCol.columns ∧
      ∃ r1 : Row, out.rows[0]? = some r1 ∧
        r1.lookup "area_for_improvement" = some (CellValue.str "Communication") := by
  obtain ⟨out, hout, hcols, -, hrow⟩ :=
    preexisting_column_overwritten "k" (okOracle "Communication") dfWithLabelCol (by decide) (by
      intro r hr
      simp only [dfWithLabelCol, List.mem_cons, List.not_mem_nil, or_false] at hr
      subst hr
      exact ⟨"t", rfl⟩)
  have hX : process_excel_file (some "k") (okOracle "Communication") dfWithLabelCol =
      some dfWithLabelColOut := rfl
  rw [hout] at hX
  obtain rfl := Option.some.inj hX
  refine ⟨dfWithLabelColOut, hout, hcols, ?_⟩
  refine ⟨[("text", CellValue.str "t"), ("area_for_improvement", CellValue.str "Communication")],
    rfl, ?_⟩
  exact hrow 0 [("text", CellValue.str "t"), ("area_for_improvement", CellValue.str "keep")]
    [("text", CellValue.str "t"), ("area_for_improvement", CellValue.str "Communication")]
    "t" "Communication" 1 rfl rfl rfl rfl
